import Mathlib

/-!
Shallow embedding of the Secret Santa web application (src/app.py).

The web framework, HTML rendering and the sqlite engine are external
collaborators; the two tables `assignments(giver PRIMARY KEY, receiver)` and
`revealed(giver PRIMARY KEY, revealed_at)` are modelled as the state `St`
below (association list of giver/receiver pairs, plus the set of givers that
have revealed, kept as a list without duplicates thanks to INSERT OR IGNORE).
Randomness (`random.shuffle`) is modelled as an explicit stream
`shuffles : Nat → List String` of candidate receiver orders, one per attempt;
the guarantee that `random.shuffle` permutes the copied list becomes the
hypothesis `∀ i, (shuffles i).Perm names` where needed.
-/

namespace Intercambio

/-- Model of Python `str.strip()` with no argument: remove leading and
trailing whitespace characters. -/
def pyStrip (s : String) : String :=
  ⟨((s.data.dropWhile Char.isWhitespace).reverse.dropWhile Char.isWhitespace).reverse⟩

/-- Process-wide configuration of app.py: the module-level constants
`NAMES`, `PIN_REQUIRED`, `PINS` and `FORBIDDEN_PAIRS`. -/
structure Config where
  names : List String
  pinRequired : Bool
  pins : List (String × String)
  forbiddenPairs : List (String × String)
deriving Repr, DecidableEq

/-- The concrete configuration values of src/app.py lines 15-47. -/
def defaultConfig : Config :=
  { names := ["Fortis", "Mara", "Diego", "Maryem", "Zaira", "Kami", "Laila", "Alek"]
    pinRequired := true
    pins := [("Fortis", "1111"), ("Mara", "2222"), ("Diego", "3333"),
             ("Maryem", "4444"), ("Zaira", "5555"), ("Kami", "6666"),
             ("Laila", "7777"), ("Alek", "8888")]
    forbiddenPairs := [("Fortis", "Mara")] }

/-- Persistent database state: the `assignments` table (giver, receiver rows,
giver is the primary key) and the `revealed` table (set of givers; the
timestamp column plays no role in any claim and is omitted). -/
structure St where
  assignments : List (String × String)
  revealed : List String
deriving Repr, DecidableEq

/-- Association-list lookup, the model of `SELECT ... WHERE giver = ?` on a
primary-key column and of Python dict lookup on string keys. -/
def lookupStr (l : List (String × String)) (k : String) : Option String :=
  (l.find? (fun p => p.1 = k)).map (·.2)

/-- app.py `assignments_exist`: `SELECT COUNT(*) FROM assignments` is > 0. -/
def assignments_exist (st : St) : Bool :=
  decide (0 < st.assignments.length)

/-- app.py `load_receiver`: the receiver recorded for `giver`, if any. -/
def load_receiver (st : St) (giver : String) : Option String :=
  lookupStr st.assignments giver

/-- app.py `mark_revealed`: `INSERT OR IGNORE INTO revealed` — a no-op when
the giver is already present. -/
def mark_revealed (giver : String) (st : St) : St :=
  if giver ∈ st.revealed then st else { st with revealed := giver :: st.revealed }

/-- app.py `is_valid_pair`: no self-assignment and not a forbidden pair. -/
def is_valid_pair (forbidden : List (String × String)) (giver receiver : String) : Bool :=
  if giver = receiver then false
  else if (giver, receiver) ∈ forbidden then false
  else true

/-- One attempt of the generator loop body (app.py lines 124-128): pair the
givers positionally with a shuffled receiver list and check every pair. -/
def attemptOk (forbidden : List (String × String)) (names receivers : List String) : Bool :=
  (names.zip receivers).all (fun p => is_valid_pair forbidden p.1 p.2)

/-- The retry loop of `generate_secret_santa` (app.py lines 120-134), with
explicit fuel: attempt `i` uses the shuffled order `shuffles i`; the first
valid attempt is returned as `dict(zip(names, receivers))`. -/
def genLoop (forbidden : List (String × String)) (names : List String)
    (shuffles : Nat → List String) : Nat → Nat → Option (List (String × String))
  | 0, _ => none
  | fuel + 1, i =>
      if attemptOk forbidden names (shuffles i) then some (names.zip (shuffles i))
      else genLoop forbidden names shuffles fuel (i + 1)

/-- app.py `generate_secret_santa`: up to 5000 shuffle attempts; `none`
models the `RuntimeError` raised when the bound is exhausted. -/
def generate_secret_santa (forbidden : List (String × String)) (names : List String)
    (shuffles : Nat → List String) : Option (List (String × String)) :=
  genLoop forbidden names shuffles 5000 0

/-- app.py `save_assignments`: DELETE FROM assignments, DELETE FROM revealed,
then insert every pair of the mapping. -/
def save_assignments (mapping : List (String × String)) (_st : St) : St :=
  { assignments := mapping, revealed := [] }

/-- Outcome of the `/reveal` route, abstracting from flash messages and
templates: the three user-facing rejections, the internal-inconsistency
rejection, and a successful disclosure carrying the receiver. -/
inductive RevealResult where
  | invalidName
  | alreadyRevealed
  | badPin
  | missingAssignment
  | success (receiver : String)
deriving Repr, DecidableEq

/-- The `/reveal` handler (app.py lines 171-200) after form extraction and
stripping: check the giver is known, not yet revealed, the PIN (when
required) matches, and a receiver row exists and is truthy; on success mark
the giver revealed and disclose the receiver. -/
def revealCore (cfg : Config) (st : St) (giver pin : String) : RevealResult × St :=
  if giver ∉ cfg.names then (.invalidName, st)
  else if giver ∈ st.revealed then (.alreadyRevealed, st)
  else if cfg.pinRequired ∧ lookupStr cfg.pins giver ≠ some pin then (.badPin, st)
  else
    match load_receiver st giver with
    | none => (.missingAssignment, st)
    | some receiver =>
        if receiver = "" then (.missingAssignment, st)
        else (.success receiver, mark_revealed giver st)

/-- The `/reveal` handler on the raw form fields: both `giver` and `pin` are
stripped before any validation (app.py lines 175-176). -/
def reveal (cfg : Config) (st : St) (giverRaw pinRaw : String) : RevealResult × St :=
  revealCore cfg st (pyStrip giverRaw) (pyStrip pinRaw)

/-- Process a sequence of `/reveal` requests, threading the state. -/
def runReveals (cfg : Config) (st : St) : List (String × String) → St
  | [] => st
  | (g, p) :: rest => runReveals cfg (reveal cfg st g p).2 rest

/-- The roster listing built by the landing view: each name with its
`disabled` flag (already revealed). -/
def people (cfg : Config) (st : St) : List (String × Bool) :=
  cfg.names.map (fun name => (name, decide (name ∈ st.revealed)))

/-- The `GET /` handler (app.py lines 149-168): generate and save an
assignment only when none exists, then render the roster. The Bool in the
result records whether generation ran; `Except.error ()` models the
`RuntimeError` escaping when generation exhausts its attempts. -/
def index (cfg : Config) (shuffles : Nat → List String) (st : St) :
    Except Unit (Bool × List (String × Bool) × St) :=
  if assignments_exist st then .ok (false, people cfg st, st)
  else
    match generate_secret_santa cfg.forbiddenPairs cfg.names shuffles with
    | some mapping =>
        let st' := save_assignments mapping st
        .ok (true, people cfg st', st')
    | none => .error ()

/-- Outcome of the `POST /admin/reset` route: 401, redirect to `/`, or the
server error from a failed generation. -/
inductive AdminResetResult where
  | unauthorized
  | redirectIndex
  | serverError
deriving Repr, DecidableEq

/-- The `POST /admin/reset` handler (app.py lines 203-217). `adminKey` is
`os.environ.get("ADMIN_KEY", "")`, so the empty string models an unset
secret; `provided` is the form field. -/
def admin_reset (cfg : Config) (adminKey provided : String)
    (shuffles : Nat → List String) (st : St) : AdminResetResult × St :=
  if adminKey = "" ∨ provided ≠ adminKey then (.unauthorized, st)
  else
    match generate_secret_santa cfg.forbiddenPairs cfg.names shuffles with
    | some mapping => (.redirectIndex, save_assignments mapping st)
    | none => (.serverError, st)

/-- Outcome of the `GET /admin` route: 401 or the diagnostic listing of the
assignments and revealed tables. -/
inductive AdminViewResult where
  | unauthorized
  | listing (assignments : List (String × String)) (revealed : List String)
deriving Repr, DecidableEq

/-- The `GET /admin` handler (app.py lines 224-249). `keyParam` is
`request.args.get("key")` — `none` when the query parameter is absent — and
`envAdminKey` is `os.environ.get("ADMIN_KEY")` — `none` when the variable is
unset. The code returns 401 exactly when the two differ. -/
def admin_view (envAdminKey keyParam : Option String) (st : St) : AdminViewResult :=
  if keyParam ≠ envAdminKey then .unauthorized
  else .listing st.assignments st.revealed

end Intercambio

namespace Intercambio

/-! ### Generator lemmas -/

theorem is_valid_pair_iff (forbidden : List (String × String)) (g r : String) :
    is_valid_pair forbidden g r = true ↔ g ≠ r ∧ (g, r) ∉ forbidden := by
  unfold is_valid_pair
  split <;> rename_i h1
  · simp [h1]
  · split <;> rename_i h2 <;> simp [h1, h2]

theorem attemptOk_iff (forbidden : List (String × String)) (names receivers : List String) :
    attemptOk forbidden names receivers = true ↔
      ∀ gr ∈ names.zip receivers, gr.1 ≠ gr.2 ∧ gr ∉ forbidden := by
  simp only [attemptOk, List.all_eq_true, is_valid_pair_iff]

theorem genLoop_some (forbidden : List (String × String)) (names : List String)
    (shuffles : Nat → List String) :
    ∀ fuel i m, genLoop forbidden names shuffles fuel i = some m →
      ∃ j, attemptOk forbidden names (shuffles j) = true ∧ m = names.zip (shuffles j) := by
  intro fuel
  induction fuel with
  | zero => intro i m h; simp [genLoop] at h
  | succ n ih =>
      intro i m h
      unfold genLoop at h
      split at h
      · exact ⟨i, by assumption, (Option.some.inj h).symm⟩
      · exact ih (i + 1) m h

theorem genLoop_none (forbidden : List (String × String)) (names : List String)
    (shuffles : Nat → List String) :
    ∀ fuel i, genLoop forbidden names shuffles fuel i = none ↔
      ∀ j, j < fuel → attemptOk forbidden names (shuffles (i + j)) = false := by
  intro fuel
  induction fuel with
  | zero => intro i; simp [genLoop]
  | succ n ih =>
      intro i
      unfold genLoop
      split <;> rename_i hc
      · constructor
        · intro h; cases h
        · intro h
          have h0 := h 0 (Nat.succ_pos n)
          rw [Nat.add_zero] at h0
          rw [hc] at h0
          cases h0
      · rw [ih (i + 1)]
        constructor
        · intro h j hj
          cases j with
          | zero =>
              rw [Nat.add_zero]
              exact Bool.eq_false_iff.mpr hc
          | succ k =>
              have hk := h k (Nat.lt_of_succ_lt_succ hj)
              have harith : i + 1 + k = i + (k + 1) := by omega
              rwa [harith] at hk
        · intro h j hj
          have hk := h (j + 1) (Nat.succ_lt_succ hj)
          have harith : i + (j + 1) = i + 1 + j := by omega
          rwa [harith] at hk

/-- Soundness of the generator: any returned mapping pairs the roster with
one of the shuffled orders that passed the per-pair check. -/
theorem generate_sound (forbidden : List (String × String)) (names : List String)
    (shuffles : Nat → List String) (m : List (String × String))
    (hperm : ∀ i, (shuffles i).Perm names)
    (hm : generate_secret_santa forbidden names shuffles = some m) :
    m.map Prod.fst = names ∧ (m.map Prod.snd).Perm names ∧
      ∀ gr ∈ m, gr.1 ≠ gr.2 ∧ gr ∉ forbidden := by
  obtain ⟨j, hok, rfl⟩ := genLoop_some forbidden names shuffles 5000 0 m hm
  have hlen : (shuffles j).length = names.length := (hperm j).length_eq
  refine ⟨List.map_fst_zip names (shuffles j) (le_of_eq hlen.symm), ?_, ?_⟩
  · rw [List.map_snd_zip names (shuffles j) (le_of_eq hlen)]
    exact hperm j
  · exact (attemptOk_iff forbidden names (shuffles j)).mp hok

/-- Claim C1: on a duplicate-free roster of size at least 2, with any
forbidden-pair set, every mapping returned by `generate_secret_santa` is a
bijection over the roster (givers are exactly the roster in order, receivers
are a duplicate-free permutation of the roster) with no self-assignment and
no forbidden pair. -/
theorem C1_generate_bijection (forbidden : List (String × String)) (names : List String)
    (shuffles : Nat → List String) (m : List (String × String))
    (hnd : names.Nodup) (_hsz : 2 ≤ names.length)
    (hperm : ∀ i, (shuffles i).Perm names)
    (hm : generate_secret_santa forbidden names shuffles = some m) :
    m.map Prod.fst = names ∧ (m.map Prod.snd).Perm names ∧
      (m.map Prod.snd).Nodup ∧
      ∀ gr ∈ m, gr.1 ≠ gr.2 ∧ gr ∉ forbidden := by
  obtain ⟨h1, h2, h3⟩ := generate_sound forbidden names shuffles m hperm hm
  exact ⟨h1, h2, h2.nodup_iff.mpr hnd, h3⟩

/-- Witness for C1 at roster [A,B,C], forbidden {(A,B)}, shuffle stream
constantly [C,A,B]. -/
theorem C1_generate_bijection_witness :
    ([("A", "C"), ("B", "A"), ("C", "B")] : List (String × String)).map Prod.fst =
        ["A", "B", "C"] ∧
      (([("A", "C"), ("B", "A"), ("C", "B")] : List (String × String)).map Prod.snd).Perm
        ["A", "B", "C"] ∧
      (([("A", "C"), ("B", "A"), ("C", "B")] : List (String × String)).map Prod.snd).Nodup ∧
      ∀ gr ∈ ([("A", "C"), ("B", "A"), ("C", "B")] : List (String × String)),
        gr.1 ≠ gr.2 ∧ gr ∉ [("A", "B")] :=
  C1_generate_bijection [("A", "B")] ["A", "B", "C"] (fun _ => ["C", "A", "B"])
    [("A", "C"), ("B", "A"), ("C", "B")] (by decide) (by decide)
    (fun _ => show (["C", "A", "B"] : List String).Perm ["A", "B", "C"] from by decide) rfl

/-- Claim C2: the generator signals failure (the `RuntimeError`, modelled as
`none`) exactly when none of its 5000 attempts pairs the roster with a
shuffled order satisfying the no-self and no-forbidden constraints; being a
plain iteration over attempts 0..4999, it always terminates. -/
theorem C2_generate_none_iff (forbidden : List (String × String)) (names : List String)
    (shuffles : Nat → List String) :
    generate_secret_santa forbidden names shuffles = none ↔
      ∀ i, i < 5000 →
        ¬ ∀ gr ∈ names.zip (shuffles i), gr.1 ≠ gr.2 ∧ gr ∉ forbidden := by
  unfold generate_secret_santa
  rw [genLoop_none forbidden names shuffles 5000 0]
  constructor
  · intro h i hi hall
    have hf := h i hi
    rw [Nat.zero_add] at hf
    rw [(attemptOk_iff forbidden names (shuffles i)).mpr hall] at hf
    cases hf
  · intro h j hj
    rw [Nat.zero_add]
    have := h j hj
    rw [← attemptOk_iff forbidden names (shuffles j)] at this
    exact Bool.eq_false_iff.mpr this

/-! ### Reveal lemmas -/

theorem mem_mark_revealed_self (g : String) (st : St) :
    g ∈ (mark_revealed g st).revealed := by
  unfold mark_revealed
  split <;> rename_i hg
  · exact hg
  · exact List.mem_cons_self g st.revealed

theorem mem_mark_revealed_of_mem (x g : String) (st : St) (h : g ∈ st.revealed) :
    g ∈ (mark_revealed x st).revealed := by
  unfold mark_revealed
  split
  · exact h
  · exact List.mem_cons_of_mem x h

/-- Shape of the reveal handler: either it succeeds and the only state
change is marking the (stripped) giver revealed, or it rejects and the state
is exactly the input state. -/
theorem revealCore_shape (cfg : Config) (st : St) (g p : String) :
    (∃ r, (revealCore cfg st g p).1 = .success r ∧
        (revealCore cfg st g p).2 = mark_revealed g st) ∨
      ((∀ r, (revealCore cfg st g p).1 ≠ .success r) ∧ (revealCore cfg st g p).2 = st) := by
  unfold revealCore
  split
  · exact Or.inr ⟨fun r => by simp, rfl⟩
  split
  · exact Or.inr ⟨fun r => by simp, rfl⟩
  split
  · exact Or.inr ⟨fun r => by simp, rfl⟩
  split
  · exact Or.inr ⟨fun r => by simp, rfl⟩
  split
  · exact Or.inr ⟨fun r => by simp, rfl⟩
  · exact Or.inl ⟨_, rfl, rfl⟩

theorem revealCore_success_mem (cfg : Config) (st : St) (g p r : String) (st' : St)
    (h : revealCore cfg st g p = (.success r, st')) :
    g ∈ cfg.names ∧ g ∈ st'.revealed := by
  have hn : g ∈ cfg.names := by
    by_contra hn
    unfold revealCore at h
    rw [if_pos hn] at h
    exact absurd (congrArg Prod.fst h) (by simp)
  refine ⟨hn, ?_⟩
  rcases revealCore_shape cfg st g p with ⟨r', _, hsnd⟩ | ⟨hns, _⟩
  · have hst : st' = mark_revealed g st := by
      rw [h] at hsnd
      exact hsnd
    rw [hst]
    exact mem_mark_revealed_self g st
  · exact absurd (by rw [h]) (hns r)

theorem revealCore_blocked (cfg : Config) (st : St) (g p : String)
    (hn : g ∈ cfg.names) (hr : g ∈ st.revealed) :
    revealCore cfg st g p = (.alreadyRevealed, st) := by
  unfold revealCore
  rw [if_neg (not_not_intro hn), if_pos hr]

theorem reveal_preserves_revealed (cfg : Config) (st : St) (a b g : String)
    (h : g ∈ st.revealed) : g ∈ ((reveal cfg st a b).2).revealed := by
  unfold reveal
  rcases revealCore_shape cfg st (pyStrip a) (pyStrip b) with ⟨r, _, hsnd⟩ | ⟨_, hsnd⟩
  · rw [hsnd]
    exact mem_mark_revealed_of_mem (pyStrip a) g st h
  · rw [hsnd]
    exact h

theorem runReveals_preserves_revealed (cfg : Config) (g : String) :
    ∀ (reqs : List (String × String)) (st : St), g ∈ st.revealed →
      g ∈ (runReveals cfg st reqs).revealed := by
  intro reqs
  induction reqs with
  | nil => intro st h; exact h
  | cons req rest ih =>
      intro st h
      exact ih (reveal cfg st req.1 req.2).2 (reveal_preserves_revealed cfg st req.1 req.2 g h)

/-- Claim C3: once a reveal for a participant has succeeded, every later
reveal request naming that participant — whatever PIN it supplies, and after
any interleaving of further reveal requests by anyone — is rejected with
`AlreadyRevealed` and changes nothing; no reveal operation ever removes a
reveal record, so only the admin reset (which rebuilds the state with an
empty revealed table) can lift the block. -/
theorem C3_reveal_exactly_once (cfg : Config) (st st₁ : St) (g p r : String)
    (h : reveal cfg st g p = (.success r, st₁))
    (reqs : List (String × String)) (p' : String) :
    reveal cfg (runReveals cfg st₁ reqs) g p' =
      (.alreadyRevealed, runReveals cfg st₁ reqs) := by
  have hsm := revealCore_success_mem cfg st (pyStrip g) (pyStrip p) r st₁ h
  have hrev : pyStrip g ∈ (runReveals cfg st₁ reqs).revealed :=
    runReveals_preserves_revealed cfg (pyStrip g) reqs st₁ hsm.2
  unfold reveal
  exact revealCore_blocked cfg (runReveals cfg st₁ reqs) (pyStrip g) (pyStrip p') hsm.1 hrev

/-- Witness for C3: Fortis reveals successfully, Mara then reveals, and a
repeat attempt for Fortis with a different PIN is rejected unchanged. -/
theorem C3_reveal_exactly_once_witness :
    reveal defaultConfig
        (runReveals defaultConfig ⟨[("Fortis", "Diego")], ["Fortis"]⟩ [("Mara", "2222")])
        "Fortis" "9999" =
      (.alreadyRevealed,
        runReveals defaultConfig ⟨[("Fortis", "Diego")], ["Fortis"]⟩ [("Mara", "2222")]) :=
  C3_reveal_exactly_once defaultConfig ⟨[("Fortis", "Diego")], []⟩
    ⟨[("Fortis", "Diego")], ["Fortis"]⟩ "Fortis" "1111" "Diego" (by decide)
    [("Mara", "2222")] "9999"

/-- Full characterization of the reveal handler's outcome in terms of the
semantic conditions, establishing the short-circuit order of the checks. -/
theorem revealCore_fst_iff (cfg : Config) (st : St) (g p : String) :
    ((revealCore cfg st g p).1 = .invalidName ↔ g ∉ cfg.names) ∧
    ((revealCore cfg st g p).1 = .alreadyRevealed ↔ g ∈ cfg.names ∧ g ∈ st.revealed) ∧
    ((revealCore cfg st g p).1 = .badPin ↔
        g ∈ cfg.names ∧ g ∉ st.revealed ∧ cfg.pinRequired = true ∧
          lookupStr cfg.pins g ≠ some p) ∧
    ((revealCore cfg st g p).1 = .missingAssignment ↔
        g ∈ cfg.names ∧ g ∉ st.revealed ∧
          (cfg.pinRequired = true → lookupStr cfg.pins g = some p) ∧
          (load_receiver st g = none ∨ load_receiver st g = some "")) ∧
    (∀ r, (revealCore cfg st g p).1 = .success r ↔
        g ∈ cfg.names ∧ g ∉ st.revealed ∧
          (cfg.pinRequired = true → lookupStr cfg.pins g = some p) ∧
          load_receiver st g = some r ∧ r ≠ "") := by
  by_cases h1 : g ∈ cfg.names
  · by_cases h2 : g ∈ st.revealed
    · simp [revealCore, h1, h2]
    · by_cases h3 : (cfg.pinRequired = true) ∧ lookupStr cfg.pins g ≠ some p
      · simp only [revealCore, if_neg (not_not_intro h1), if_neg h2, if_pos h3]
        simp [h1, h2, h3.1, h3.2]
      · have h3' : cfg.pinRequired = true → lookupStr cfg.pins g = some p := by
          intro hreq
          by_contra hlk
          exact h3 ⟨hreq, hlk⟩
        rcases hlr : load_receiver st g with _ | r₀
        · simp only [revealCore, if_neg (not_not_intro h1), if_neg h2, if_neg h3, hlr]
          simp [h1, h2, iff_true_intro h3', hlr]
        · by_cases h4 : r₀ = ""
          · simp only [revealCore, if_neg (not_not_intro h1), if_neg h2, if_neg h3, hlr,
              if_pos h4]
            simp [h1, h2, iff_true_intro h3', hlr, h4]
          · simp only [revealCore, if_neg (not_not_intro h1), if_neg h2, if_neg h3, hlr,
              if_neg h4]
            simp [h1, h2, iff_true_intro h3', hlr, h4]
  · simp [revealCore, h1]

theorem reveal_def (cfg : Config) (st : St) (a b : String) :
    reveal cfg st a b = revealCore cfg st (pyStrip a) (pyStrip b) := rfl

/-- Claim C4: the reveal checks run in the order unknown-name,
already-revealed, PIN mismatch (only when PIN authentication is enabled),
missing assignment, and the first failing check names the rejection: each
outcome holds exactly when its own check fails and every earlier check
passed. -/
theorem C4_validation_order (cfg : Config) (st : St) (gRaw pRaw : String) :
    ((reveal cfg st gRaw pRaw).1 = .invalidName ↔ pyStrip gRaw ∉ cfg.names) ∧
    ((reveal cfg st gRaw pRaw).1 = .alreadyRevealed ↔
        pyStrip gRaw ∈ cfg.names ∧ pyStrip gRaw ∈ st.revealed) ∧
    ((reveal cfg st gRaw pRaw).1 = .badPin ↔
        pyStrip gRaw ∈ cfg.names ∧ pyStrip gRaw ∉ st.revealed ∧
          cfg.pinRequired = true ∧
          lookupStr cfg.pins (pyStrip gRaw) ≠ some (pyStrip pRaw)) ∧
    ((reveal cfg st gRaw pRaw).1 = .missingAssignment ↔
        pyStrip gRaw ∈ cfg.names ∧ pyStrip gRaw ∉ st.revealed ∧
          (cfg.pinRequired = true → lookupStr cfg.pins (pyStrip gRaw) = some (pyStrip pRaw)) ∧
          (load_receiver st (pyStrip gRaw) = none ∨
            load_receiver st (pyStrip gRaw) = some "")) ∧
    (∀ r, (reveal cfg st gRaw pRaw).1 = .success r ↔
        pyStrip gRaw ∈ cfg.names ∧ pyStrip gRaw ∉ st.revealed ∧
          (cfg.pinRequired = true → lookupStr cfg.pins (pyStrip gRaw) = some (pyStrip pRaw)) ∧
          load_receiver st (pyStrip gRaw) = some r ∧ r ≠ "") := by
  rw [reveal_def]
  exact revealCore_fst_iff cfg st (pyStrip gRaw) (pyStrip pRaw)

/-- Claim C5: a rejected reveal (InvalidName, AlreadyRevealed or BadPin)
never changes the persisted state and never discloses the receiver; in
particular, with PIN authentication enabled, a request whose stripped PIN
does not match the giver's configured PIN leaves the state untouched and
never yields a success. -/
theorem C5_reject_no_state_change (cfg : Config) (st : St) (gRaw pRaw : String) :
    (∀ res st', reveal cfg st gRaw pRaw = (res, st') →
        res = .invalidName ∨ res = .alreadyRevealed ∨ res = .badPin →
        st' = st ∧ ∀ r, res ≠ .success r) ∧
    (cfg.pinRequired = true → lookupStr cfg.pins (pyStrip gRaw) ≠ some (pyStrip pRaw) →
        (reveal cfg st gRaw pRaw).2 = st ∧
          ∀ r, (reveal cfg st gRaw pRaw).1 ≠ .success r) := by
  constructor
  · intro res st' h hrej
    rw [reveal_def] at h
    have hns : ∀ r, res ≠ RevealResult.success r := by
      intro r hr
      rcases hrej with rfl | rfl | rfl <;> cases hr
    refine ⟨?_, hns⟩
    rcases revealCore_shape cfg st (pyStrip gRaw) (pyStrip pRaw) with ⟨r, hfst, _⟩ | ⟨_, hsnd⟩
    · rw [h] at hfst
      exact absurd hfst (hns r)
    · rw [h] at hsnd
      exact hsnd
  · intro hreq hmiss
    rw [reveal_def]
    have hns : ∀ r, (revealCore cfg st (pyStrip gRaw) (pyStrip pRaw)).1 ≠ .success r := by
      intro r hr
      have hch := (revealCore_fst_iff cfg st (pyStrip gRaw) (pyStrip pRaw)).2.2.2.2 r
      exact hmiss ((hch.mp hr).2.2.1 hreq)
    rcases revealCore_shape cfg st (pyStrip gRaw) (pyStrip pRaw) with ⟨r, hfst, _⟩ | ⟨_, hsnd⟩
    · exact absurd hfst (hns r)
    · exact ⟨hsnd, hns⟩

/-- Witness for C5: with the configured PINs, a reveal for Fortis with the
wrong PIN 0000 leaves the state unchanged and does not disclose. -/
theorem C5_reject_no_state_change_witness :
    (reveal defaultConfig ⟨[("Fortis", "Diego")], []⟩ "Fortis" "0000").2 =
        ⟨[("Fortis", "Diego")], []⟩ ∧
      ∀ r, (reveal defaultConfig ⟨[("Fortis", "Diego")], []⟩ "Fortis" "0000").1 ≠
        RevealResult.success r :=
  (C5_reject_no_state_change defaultConfig ⟨[("Fortis", "Diego")], []⟩ "Fortis" "0000").2
    rfl (by decide)

/-- Claim C10: both the giver and the PIN form fields are stripped of
surrounding whitespace before any validation, so requests differing only in
surrounding whitespace get identical results and state effects. -/
theorem C10_strip_whitespace (cfg : Config) (st : St) (g₁ g₂ p₁ p₂ : String)
    (hg : pyStrip g₁ = pyStrip g₂) (hp : pyStrip p₁ = pyStrip p₂) :
    reveal cfg st g₁ p₁ = reveal cfg st g₂ p₂ := by
  rw [reveal_def, reveal_def, hg, hp]

/-- Witness for C10: a padded name and PIN behave exactly like the unpadded
request, and still authenticate and reveal. -/
theorem C10_strip_whitespace_witness :
    reveal defaultConfig ⟨[("Fortis", "Diego")], []⟩ "  Fortis  " " 1111" =
        reveal defaultConfig ⟨[("Fortis", "Diego")], []⟩ "Fortis" "1111" ∧
      (reveal defaultConfig ⟨[("Fortis", "Diego")], []⟩ "  Fortis  " " 1111").1 =
        RevealResult.success "Diego" :=
  ⟨C10_strip_whitespace defaultConfig ⟨[("Fortis", "Diego")], []⟩ "  Fortis  " "Fortis"
      " 1111" "1111" (by decide) (by decide), by decide⟩

/-! ### Store and admin lemmas -/

/-- Claim C6: `save_assignments` wholesale replaces the persisted assignment
with the given mapping and clears every reveal record, so immediately
afterwards nobody is revealed and lookup agrees exactly with the new
mapping; an authorized admin reset applies exactly this to a freshly
generated mapping, which (for permutation-producing shuffles) is valid. -/
theorem C6_save_replaces_and_clears (m : List (String × String)) (st : St) :
    (save_assignments m st).assignments = m ∧
    (save_assignments m st).revealed = [] ∧
    (∀ g, g ∉ (save_assignments m st).revealed) ∧
    (∀ g, load_receiver (save_assignments m st) g = lookupStr m g) ∧
    (∀ (cfg : Config) (adminKey provided : String) (shuffles : Nat → List String)
        (m' : List (String × String)),
      adminKey ≠ "" → provided = adminKey →
      generate_secret_santa cfg.forbiddenPairs cfg.names shuffles = some m' →
      admin_reset cfg adminKey provided shuffles st =
          (.redirectIndex, save_assignments m' st) ∧
        ((∀ i, (shuffles i).Perm cfg.names) →
          m'.map Prod.fst = cfg.names ∧ (m'.map Prod.snd).Perm cfg.names ∧
            ∀ gr ∈ m', gr.1 ≠ gr.2 ∧ gr ∉ cfg.forbiddenPairs)) := by
  refine ⟨rfl, rfl, fun g => List.not_mem_nil g, fun g => rfl, ?_⟩
  intro cfg adminKey provided shuffles m' hk hp hgen
  constructor
  · unfold admin_reset
    rw [if_neg (not_or.mpr ⟨hk, not_not_intro hp⟩), hgen]
  · intro hperm
    exact generate_sound cfg.forbiddenPairs cfg.names shuffles m' hperm hgen

/-- Witness for C6: an authorized reset on roster [A,B,C] with forbidden
pair (A,B) and constant shuffle [C,A,B] replaces the state with the fresh
mapping and empty reveal records. -/
theorem C6_save_replaces_and_clears_witness :
    admin_reset ⟨["A", "B", "C"], false, [], [("A", "B")]⟩ "k" "k"
        (fun _ => ["C", "A", "B"]) ⟨[], ["Fortis"]⟩ =
      (.redirectIndex,
        save_assignments [("A", "C"), ("B", "A"), ("C", "B")] ⟨[], ["Fortis"]⟩) :=
  ((C6_save_replaces_and_clears [("A", "C"), ("B", "A"), ("C", "B")] ⟨[], ["Fortis"]⟩).2.2.2.2
    ⟨["A", "B", "C"], false, [], [("A", "B")]⟩ "k" "k" (fun _ => ["C", "A", "B"])
    [("A", "C"), ("B", "A"), ("C", "B")] (by decide) rfl rfl).1

/-- Claim C7: the landing view is idempotent on persisted state — when an
assignment already exists it changes nothing and does not generate, and any
run of the view that did generate started from a state with no persisted
assignment. -/
theorem C7_index_idempotent (cfg : Config) (shuffles : Nat → List String) (st : St) :
    (assignments_exist st = true →
        index cfg shuffles st = .ok (false, people cfg st, st)) ∧
    (∀ gen ps st', index cfg shuffles st = .ok (gen, ps, st') →
        (st' = st ∧ gen = false) ∨ (st.assignments = [] ∧ gen = true)) := by
  constructor
  · intro h
    unfold index
    rw [if_pos h]
  · intro gen ps st' h
    unfold index at h
    split at h <;> rename_i hex
    · left
      have h' := Except.ok.inj h
      simp only [Prod.mk.injEq] at h'
      exact ⟨h'.2.2.symm, h'.1.symm⟩
    · right
      have hnil : st.assignments = [] := by
        apply List.eq_nil_of_length_eq_zero
        unfold assignments_exist at hex
        simpa using hex
      split at h
      · have h' := Except.ok.inj h
        simp only [Prod.mk.injEq] at h'
        exact ⟨hnil, h'.1.symm⟩
      · cases h

/-- Witness for C7: with an assignment persisted, the landing view returns
the roster listing and leaves the state exactly as it was. -/
theorem C7_index_idempotent_witness :
    index defaultConfig (fun _ => []) ⟨[("Fortis", "Diego")], ["Fortis"]⟩ =
      .ok (false, people defaultConfig ⟨[("Fortis", "Diego")], ["Fortis"]⟩,
        ⟨[("Fortis", "Diego")], ["Fortis"]⟩) :=
  (C7_index_idempotent defaultConfig (fun _ => []) ⟨[("Fortis", "Diego")], ["Fortis"]⟩).1 rfl

/-- Claim C8: an admin reset whose supplied key mismatches the configured
secret, or arriving while the secret is unset (empty), is rejected with
Unauthorized and the persisted assignment and reveal records are exactly as
before. -/
theorem C8_admin_reset_unauthorized (cfg : Config) (adminKey provided : String)
    (shuffles : Nat → List String) (st : St)
    (h : adminKey = "" ∨ provided ≠ adminKey) :
    admin_reset cfg adminKey provided shuffles st = (.unauthorized, st) := by
  unfold admin_reset
  rw [if_pos h]

/-- Witness for C8: with the secret unset, any reset attempt is rejected
and the state survives untouched. -/
theorem C8_admin_reset_unauthorized_witness :
    admin_reset defaultConfig "" "guess" (fun _ => []) ⟨[("Fortis", "Diego")], ["Mara"]⟩ =
      (.unauthorized, ⟨[("Fortis", "Diego")], ["Mara"]⟩) :=
  C8_admin_reset_unauthorized defaultConfig "" "guess" (fun _ => [])
    ⟨[("Fortis", "Diego")], ["Mara"]⟩ (Or.inl rfl)

/-- Claim C9 fails on the code: `GET /admin` compares the raw query
parameter with the raw environment value, so with the admin secret unset
(`None`) and the `key` parameter absent (`None`) the comparison succeeds
and the diagnostic listing is disclosed instead of the 401 the
spec requires (`admin_reset`, by contrast, guards the empty secret). -/
theorem C9_admin_view_unset_discloses :
    admin_view none none ⟨[("Fortis", "Diego")], ["Mara"]⟩ =
      .listing [("Fortis", "Diego")] ["Mara"] := by decide

end Intercambio
